import Mathlib

/-!
Verification of the swerve-drivetrain coordination layer
(`src/swervepy/subsystem.py` and `src/swervelib/impl/system.py`).

The coordinator's numeric data (speeds, angles, poses) is embedded over the
rationals; rotations are carried in cosine/sine form, which is how the
geometry library manipulates them.  The external kinematics, estimator and
desaturation routines that the coordinator consumes are out of scope of the
repository: where a claim depends on their behaviour they are modelled from
the specification's external-interface contracts, and this is noted on each
such definition.  Functions of the repository itself are translated
directly from the Python source; fallible indexing is made explicit with
`Option`.
-/

namespace Swerve

/-- 2D translation vector, `wpimath.geometry.Translation2d`. -/
structure Translation2d where
  x : ℚ
  y : ℚ
  deriving DecidableEq, Repr

/-- A rotation carried as its cosine and sine components,
`wpimath.geometry.Rotation2d`. -/
structure Rotation2d where
  cos : ℚ
  sin : ℚ
  deriving DecidableEq, Repr

/-- The zero rotation (heading straight forward). -/
def Rotation2d.zero : Rotation2d := ⟨1, 0⟩

/-- Robot pose: position on the field plus heading,
`wpimath.geometry.Pose2d`. -/
structure Pose2d where
  x : ℚ
  y : ℚ
  heading : Rotation2d
  deriving DecidableEq, Repr

/-- Per-module desired state: signed wheel speed (m/s) and wheel angle,
`wpimath.kinematics.SwerveModuleState`. -/
structure SwerveModuleState where
  speed : ℚ
  angle : Rotation2d
  deriving DecidableEq, Repr

/-- Per-module odometry reading: cumulative driven distance and wheel angle,
`wpimath.kinematics.SwerveModulePosition`. -/
structure SwerveModulePosition where
  distance : ℚ
  angle : Rotation2d
  deriving DecidableEq, Repr

/-- Chassis speed: planar velocity plus rotation rate,
`wpimath.kinematics.ChassisSpeeds`. -/
structure ChassisSpeeds where
  vx : ℚ
  vy : ℚ
  omega : ℚ
  deriving DecidableEq, Repr

/-- Modelled from the spec: the external kinematics library's
field-to-robot frame conversion `ChassisSpeeds.fromFieldRelativeSpeeds`
(`wpimath`, out of scope of the repository).  It rotates the translation
by the negated robot heading and keeps the rotation rate. -/
def ChassisSpeeds.fromFieldRelativeSpeeds (vx vy omega : ℚ) (robotAngle : Rotation2d) :
    ChassisSpeeds :=
  { vx := vx * robotAngle.cos + vy * robotAngle.sin
    vy := -vx * robotAngle.sin + vy * robotAngle.cos
    omega := omega }

/-- The largest wheel-speed magnitude over a state list, starting the
running maximum at zero exactly as the external desaturation routine does. -/
def maxAbsSpeed (states : List SwerveModuleState) : ℚ :=
  (states.map (fun s => |s.speed|)).foldl max 0

/-- Modelled from the spec: the external kinematics library's
`desaturateWheelSpeeds` (`wpimath`, out of scope of the repository); per the
spec it is a uniform magnitude scale-down applied only when some module
exceeds the ceiling, preserving ratios and leaving the input untouched
otherwise. -/
def desaturateWheelSpeeds (states : List SwerveModuleState) (maxSpeed : ℚ) :
    List SwerveModuleState :=
  let realMax := maxAbsSpeed states
  if maxSpeed < realMax then
    states.map (fun s => { s with speed := s.speed / realMax * maxSpeed })
  else
    states

lemma le_foldl_max {α : Type} [LinearOrder α] (l : List α) (a : α) :
    a ≤ l.foldl max a := by
  induction l generalizing a with
  | nil => exact le_refl a
  | cons b l ih => exact le_trans (le_max_left a b) (ih (max a b))

lemma mem_le_foldl_max {α : Type} [LinearOrder α] (x : α) (l : List α) (a : α)
    (hx : x ∈ l) : x ≤ l.foldl max a := by
  induction l generalizing a with
  | nil => cases hx
  | cons b l ih =>
    rcases List.mem_cons.mp hx with h | h
    · subst h
      exact le_trans (le_max_right a x) (le_foldl_max l (max a x))
    · exact ih (max a b) h

lemma foldl_max_eq_or_mem {α : Type} [LinearOrder α] (l : List α) (a : α) :
    l.foldl max a = a ∨ l.foldl max a ∈ l := by
  induction l generalizing a with
  | nil => exact Or.inl rfl
  | cons b l ih =>
    rcases ih (max a b) with h | h
    · rcases max_choice a b with hab | hab
      · exact Or.inl (by rw [List.foldl_cons, h, hab])
      · exact Or.inr (by rw [List.foldl_cons, h, hab]; exact List.mem_cons_self b l)
    · exact Or.inr (List.mem_cons_of_mem b h)

/-- Every wheel speed magnitude is bounded by `maxAbsSpeed`. -/
lemma abs_speed_le_maxAbsSpeed {s : SwerveModuleState} {states : List SwerveModuleState}
    (hs : s ∈ states) : |s.speed| ≤ maxAbsSpeed states := by
  unfold maxAbsSpeed
  apply mem_le_foldl_max
  exact List.mem_map.mpr ⟨s, hs, rfl⟩

/-- `maxAbsSpeed` is nonnegative. -/
lemma maxAbsSpeed_nonneg (states : List SwerveModuleState) : 0 ≤ maxAbsSpeed states := by
  unfold maxAbsSpeed
  exact le_foldl_max _ 0

/-- **C1.** Desaturation: when the largest wheel-speed magnitude exceeds the
ceiling, every output state keeps its angle and carries speed
`v × (ceiling / max magnitude)` — a pure magnitude scaling preserving
ratios, whose outputs (for a nonnegative ceiling) never exceed the ceiling
in magnitude; when no speed exceeds the ceiling the input list is returned
unchanged. -/
theorem desaturateWheelSpeeds_spec (states : List SwerveModuleState) (maxLinear : ℚ) :
    (maxLinear < maxAbsSpeed states →
      desaturateWheelSpeeds states maxLinear =
        states.map (fun s => { s with speed := s.speed * (maxLinear / maxAbsSpeed states) }) ∧
      (0 ≤ maxLinear →
        ∀ s ∈ desaturateWheelSpeeds states maxLinear, |s.speed| ≤ maxLinear)) ∧
    (maxAbsSpeed states ≤ maxLinear →
      desaturateWheelSpeeds states maxLinear = states) := by
  constructor
  · intro hlt
    constructor
    · unfold desaturateWheelSpeeds
      rw [if_pos hlt]
      apply List.map_congr_left
      intro s _
      have h : s.speed / maxAbsSpeed states * maxLinear =
          s.speed * (maxLinear / maxAbsSpeed states) := by ring
      rw [h]
    · intro hL s hsmem
      have hM : 0 < maxAbsSpeed states := lt_of_le_of_lt hL hlt
      unfold desaturateWheelSpeeds at hsmem
      rw [if_pos hlt] at hsmem
      rcases List.mem_map.mp hsmem with ⟨t, htmem, rfl⟩
      have hab : |t.speed| ≤ maxAbsSpeed states := abs_speed_le_maxAbsSpeed htmem
      simp only [abs_mul, abs_div]
      rw [abs_of_pos hM, abs_of_nonneg hL]
      calc |t.speed| / maxAbsSpeed states * maxLinear
          ≤ maxAbsSpeed states / maxAbsSpeed states * maxLinear := by
            apply mul_le_mul_of_nonneg_right _ hL
            exact (div_le_div_iff_of_pos_right hM).mpr hab
        _ = maxLinear := by
            rw [div_self (ne_of_gt hM), one_mul]
  · intro hle
    unfold desaturateWheelSpeeds
    rw [if_neg (not_lt.mpr hle)]

/-- A swerve module as the coordinator sees it (the external per-module
actuator interface of the spec): an immutable placement plus the current
sensor readbacks.  Commands sent to the module are recorded as
`ModuleCommand` values by the embedding instead of mutating hardware. -/
structure SwerveModule where
  placement : Translation2d
  modulePosition : SwerveModulePosition
  moduleState : SwerveModuleState

/-- One `desire_state` call delivered to a module: which module, the
(desaturated) state, and the open-loop / rotate-in-place flags. -/
structure ModuleCommand where
  moduleIndex : ℕ
  state : SwerveModuleState
  openLoop : Bool
  rotateInPlace : Bool
  deriving DecidableEq, Repr

/-- The drivetrain coordinator (`SwerveDrive.__init__`): the module tuple,
the gyro reading, the velocity ceilings stored as plain numbers, and the
vision-pose callback.  The external kinematics conversion and the pose
estimator's fusion filter are out of scope of the repository and appear as
abstract function fields. -/
structure SwerveDrive where
  modules : List SwerveModule
  gyroHeading : Rotation2d
  maxVelocity : ℚ
  maxAngularVelocity : ℚ
  visionPoseCallback : Pose2d → Option Pose2d
  toSwerveModuleStates : ChassisSpeeds → List SwerveModuleState
  estimatorFuse : Pose2d → Rotation2d → List SwerveModulePosition → Pose2d

/-- The default `vision_pose_callback` of `SwerveDrive.__init__`
(`lambda _: None`). -/
def default_vision_pose_callback : Pose2d → Option Pose2d := fun _ => none

/-- `SwerveDrive.module_positions`: each module's position, in module
order. -/
def SwerveDrive.module_positions (d : SwerveDrive) : List SwerveModulePosition :=
  d.modules.map (fun m => m.modulePosition)

/-- `SwerveDrive.desire_module_states` of `src/swervepy/subsystem.py`:
desaturate the given states against `max_velocity`, then for each index
`i` in `range(len(self._modules))` command module `i` with the `i`-th
desaturated state and both flags.  Indexing past the end of the state
list (Python `IndexError`) is modelled by `none`. -/
def SwerveDrive.desire_module_states (d : SwerveDrive) (states : List SwerveModuleState)
    (driveOpenLoop rotateInPlace : Bool) : Option (List ModuleCommand) :=
  let sat := desaturateWheelSpeeds states d.maxVelocity
  (List.range d.modules.length).mapM (fun i =>
    (sat.get? i).map (fun s =>
      { moduleIndex := i, state := s, openLoop := driveOpenLoop,
        rotateInPlace := rotateInPlace }))

/-- `SwerveDrive.desire_module_states` of `src/swervelib/impl/system.py`:
identical to the swervepy version except that the fan-out loop is
`for i in range(4)` — it indexes `self._modules[i]` and the desaturated
state list at `i` for `i = 0..3` regardless of the module count.  An
out-of-range access (Python `IndexError`) is modelled by `none`. -/
def SwerveDrive.desire_module_states_swervelib (d : SwerveDrive)
    (states : List SwerveModuleState) (openLoop rotateInPlace : Bool) :
    Option (List ModuleCommand) :=
  let sat := desaturateWheelSpeeds states d.maxVelocity
  (List.range 4).mapM (fun i =>
    match d.modules.get? i, sat.get? i with
    | some _, some s =>
        some { moduleIndex := i, state := s, openLoop := openLoop,
               rotateInPlace := rotateInPlace }
    | _, _ => none)

/-- `SwerveDrive.drive` (primary overload): compose the chassis speed —
rotating the translation by the gyro heading when `field_relative` —
convert it to module states through the kinematics adapter, and fan the
states out with `rotate_in_place=False`. -/
def SwerveDrive.drive (d : SwerveDrive) (translation : Translation2d) (rotation : ℚ)
    (fieldRelative driveOpenLoop : Bool) : Option (List ModuleCommand) :=
  let speeds :=
    if fieldRelative then
      ChassisSpeeds.fromFieldRelativeSpeeds translation.x translation.y rotation
        d.gyroHeading
    else
      { vx := translation.x, vy := translation.y, omega := rotation }
  let states := d.toSwerveModuleStates speeds
  d.desire_module_states states driveOpenLoop false

/-- `SwerveDrive.drive` (ChassisSpeeds overload, registered through
`singledispatchmethod`): extract the translation and rotation from the
chassis speed and delegate to the primary overload with
`field_relative=False`. -/
def SwerveDrive.drive_chassis (d : SwerveDrive) (chassisSpeeds : ChassisSpeeds)
    (driveOpenLoop : Bool) : Option (List ModuleCommand) :=
  let translation : Translation2d := { x := chassisSpeeds.vx, y := chassisSpeeds.vy }
  d.drive translation chassisSpeeds.omega false driveOpenLoop

/-- `SwerveDrive.desire_module_states` called with its Python default
arguments `drive_open_loop=False, rotate_in_place=True`. -/
def SwerveDrive.desire_module_states_with_defaults (d : SwerveDrive)
    (states : List SwerveModuleState) : Option (List ModuleCommand) :=
  d.desire_module_states states false true

/-- The pose estimator's state as the coordinator observes it.  Modelled
from the spec: the estimator (external library) keeps an estimated pose,
the heading/positions baseline last fed to it, and the timestamped vision
corrections accepted so far. -/
structure OdometryState where
  estimatedPose : Pose2d
  baselineHeading : Rotation2d
  baselinePositions : List SwerveModulePosition
  corrections : List (Pose2d × ℚ)
  deriving DecidableEq, Repr

/-- Modelled from the spec: the estimator accessor `estimatedPose -> pose`
(`getEstimatedPosition`, external library). -/
def OdometryState.getEstimatedPosition (st : OdometryState) : Pose2d :=
  st.estimatedPose

/-- Modelled from the spec: the estimator operation
`resetPosition(heading, N positions, pose) -> void` (external library),
which atomically resets the internal history to the given pose with the
given heading and module positions as the new baseline. -/
def OdometryState.resetPosition (gyroAngle : Rotation2d)
    (positions : List SwerveModulePosition) (pose : Pose2d) : OdometryState :=
  { estimatedPose := pose, baselineHeading := gyroAngle,
    baselinePositions := positions, corrections := [] }

/-- The `pose` property of `SwerveDrive`: reads the estimator's estimated
position. -/
def SwerveDrive.pose (st : OdometryState) : Pose2d :=
  st.getEstimatedPosition

/-- `SwerveDrive.reset_odometry`: delegates to the estimator's
`resetPosition` with the current gyro heading and module positions as the
new baseline and the given pose as the new estimate. -/
def SwerveDrive.reset_odometry (d : SwerveDrive) (pose : Pose2d) : OdometryState :=
  OdometryState.resetPosition d.gyroHeading d.module_positions pose

/-- `SwerveDrive.periodic`: update the estimator from the current gyro
heading and module positions (fusion, modelled by the abstract
`estimatorFuse` field), then call the vision-pose callback on the current
pose, and add the returned pose as a timestamped vision measurement when
one is returned.  The result pairs the new estimator state with the list
of arguments the callback was invoked with during this call. -/
def SwerveDrive.periodic (d : SwerveDrive) (st : OdometryState) (timestamp : ℚ) :
    OdometryState × List Pose2d :=
  let fused := d.estimatorFuse st.estimatedPose d.gyroHeading d.module_positions
  let updated : OdometryState :=
    { st with estimatedPose := fused, baselineHeading := d.gyroHeading,
              baselinePositions := d.module_positions }
  let currentPose := SwerveDrive.pose updated
  match d.visionPoseCallback currentPose with
  | some p =>
      ({ updated with corrections := updated.corrections ++ [(p, timestamp)] },
       [currentPose])
  | none => (updated, [currentPose])

/-- The teleoperation command's mutable runtime state.  The constructor of
`_TeleOpCommand` sets the attributes `field_relative` and `open_loop`; a
Python instance can later acquire further attributes through `setattr`, so
the attribute `drive_open_loop` — which only the swervepy dashboard
setter ever writes — is carried as an `Option` that is `none` while the
attribute does not exist. -/
structure TeleOpCommand where
  field_relative : Bool
  open_loop : Bool
  drive_open_loop : Option Bool
  deriving DecidableEq, Repr

/-- `_TeleOpCommand.__init__`: stores the two flags; no `drive_open_loop`
attribute exists yet. -/
def TeleOpCommand.init (fieldRelative driveOpenLoop : Bool) : TeleOpCommand :=
  { field_relative := fieldRelative, open_loop := driveOpenLoop,
    drive_open_loop := none }

/-- The dashboard setter bound to the Open Loop boolean property in
`src/swervepy/subsystem.py` (`initSendable`): it executes
`setattr(self, "drive_open_loop", val)`. -/
def TeleOpCommand.dashboard_set_open_loop_swervepy (c : TeleOpCommand) (val : Bool) :
    TeleOpCommand :=
  { c with drive_open_loop := some val }

/-- The dashboard setter bound to the Open Loop boolean property in
`src/swervelib/impl/system.py` (`initSendable`): it executes
`setattr(self, "open_loop", val)`. -/
def TeleOpCommand.dashboard_set_open_loop_swervelib (c : TeleOpCommand) (val : Bool) :
    TeleOpCommand :=
  { c with open_loop := val }

/-- The dashboard setter bound to the Field Relative boolean property
(identical in both source files): `setattr(self, "field_relative", val)`. -/
def TeleOpCommand.dashboard_set_field_relative (c : TeleOpCommand) (val : Bool) :
    TeleOpCommand :=
  { c with field_relative := val }

/-- `_TeleOpCommand.toggle_open_loop`. -/
def TeleOpCommand.toggle_open_loop (c : TeleOpCommand) : TeleOpCommand :=
  { c with open_loop := !c.open_loop }

/-- `_TeleOpCommand.toggle_field_relative`. -/
def TeleOpCommand.toggle_field_relative (c : TeleOpCommand) : TeleOpCommand :=
  { c with field_relative := !c.field_relative }

/-- `_TeleOpCommand.execute`: sample the three input sources, scale them by
the coordinator's velocity ceilings, and call `drive` with the command's
`field_relative` and `open_loop` attributes. -/
def TeleOpCommand.execute (c : TeleOpCommand) (d : SwerveDrive)
    (translationInput strafeInput rotationInput : ℚ) : Option (List ModuleCommand) :=
  d.drive
    { x := translationInput * d.maxVelocity, y := strafeInput * d.maxVelocity }
    (rotationInput * d.maxAngularVelocity)
    c.field_relative
    c.open_loop

/-- `TrajectoryFollowerParameters`. -/
structure TrajectoryFollowerParameters where
  max_drive_velocity : ℚ
  theta_kP : ℚ
  xy_kP : ℚ
  deriving DecidableEq, Repr

/-- The feedback controller built by `follow_trajectory_command`: the
arguments handed to `PPHolonomicDriveController` (external library), the
last one being the drive-base radius. -/
structure PPHolonomicDriveController where
  xy_kP : ℚ
  theta_kP : ℚ
  maxDriveVelocity : ℚ
  driveBaseRadius : ℝ

/-- The Euclidean magnitude `math.sqrt(trans.x**2 + trans.y**2)` of a
translation. -/
noncomputable def Translation2d.norm (t : Translation2d) : ℝ :=
  Real.sqrt ((t.x : ℝ) ^ 2 + (t.y : ℝ) ^ 2)

/-- `greatest_distance_from_translations`: map each translation to its
magnitude and take the maximum.  Python `max` on an empty tuple raises, so
the empty case is modelled by `none`. -/
noncomputable def greatest_distance_from_translations
    (translations : List Translation2d) : Option ℝ :=
  match translations.map Translation2d.norm with
  | [] => none
  | dist :: rest => some (rest.foldl max dist)

/-- The controller constructed inside
`SwerveDrive.follow_trajectory_command`: PID constants from the follower
parameters, the velocity ceiling, and as drive-base radius the value of
`greatest_distance_from_translations` over the modules' placements. -/
noncomputable def SwerveDrive.follow_trajectory_command_controller (d : SwerveDrive)
    (parameters : TrajectoryFollowerParameters) : Option PPHolonomicDriveController :=
  (greatest_distance_from_translations (d.modules.map (fun m => m.placement))).map
    (fun radius =>
      { xy_kP := parameters.xy_kP, theta_kP := parameters.theta_kP,
        maxDriveVelocity := parameters.max_drive_velocity,
        driveBaseRadius := radius })

/-- Fixture: a module placed 5 m from center (3-4-5 triangle). -/
def sampleModule : SwerveModule :=
  { placement := { x := 3, y := 4 },
    modulePosition := { distance := 0, angle := Rotation2d.zero },
    moduleState := { speed := 0, angle := Rotation2d.zero } }

/-- Fixture: a one-state kinematics conversion for a single-module rig. -/
def sampleKinematics : ChassisSpeeds → List SwerveModuleState :=
  fun s => [{ speed := s.vx, angle := Rotation2d.zero }]

/-- Fixture: a single-module drivetrain at zero heading with the default
vision callback. -/
def sampleDrive : SwerveDrive :=
  { modules := [sampleModule],
    gyroHeading := Rotation2d.zero,
    maxVelocity := 4,
    maxAngularVelocity := 2,
    visionPoseCallback := default_vision_pose_callback,
    toSwerveModuleStates := sampleKinematics,
    estimatorFuse := fun p _ _ => p }

/-- Fixture: a two-module drivetrain (same geometry duplicated). -/
def twoModuleDrive : SwerveDrive :=
  { modules := [sampleModule, sampleModule],
    gyroHeading := Rotation2d.zero,
    maxVelocity := 4,
    maxAngularVelocity := 2,
    visionPoseCallback := default_vision_pose_callback,
    toSwerveModuleStates := sampleKinematics,
    estimatorFuse := fun p _ _ => p }

/-- Fixture: an estimator state away from the origin. -/
def sampleOdometry : OdometryState :=
  { estimatedPose := { x := 1, y := 2, heading := Rotation2d.zero },
    baselineHeading := Rotation2d.zero,
    baselinePositions := [],
    corrections := [] }

/-- Inversion for `Option`-monad `mapM`: every element of a successful
result arises from some element of the input. -/
lemma mapM_option_mem {α β : Type} (f : α → Option β) (l : List α) (res : List β)
    (h : l.mapM f = some res) : ∀ b ∈ res, ∃ a ∈ l, f a = some b := by
  induction l generalizing res with
  | nil =>
    rw [List.mapM_nil] at h
    cases h
    intro b hb
    cases hb
  | cons a l ih =>
    rw [List.mapM_cons] at h
    cases hfa : f a with
    | none =>
      rw [hfa] at h
      cases h
    | some b0 =>
      rw [hfa] at h
      cases hml : l.mapM f with
      | none =>
        rw [hml] at h
        cases h
      | some rest =>
        rw [hml] at h
        cases h
        intro b hb
        rcases List.mem_cons.mp hb with h1 | h1
        · subst h1
          exact ⟨a, List.mem_cons_self a l, hfa⟩
        · rcases ih rest hml b h1 with ⟨a1, ha1, hfa1⟩
          exact ⟨a1, List.mem_cons_of_mem a ha1, hfa1⟩

/-- Every command fanned out by `desire_module_states` carries exactly the
flags the call was made with. -/
lemma desire_module_states_flags (d : SwerveDrive) (states : List SwerveModuleState)
    (driveOpenLoop rotateInPlace : Bool) (cmds : List ModuleCommand)
    (h : d.desire_module_states states driveOpenLoop rotateInPlace = some cmds) :
    ∀ c ∈ cmds, c.openLoop = driveOpenLoop ∧ c.rotateInPlace = rotateInPlace := by
  intro c hc
  unfold SwerveDrive.desire_module_states at h
  rcases mapM_option_mem _ _ _ h c hc with ⟨i, _, hi⟩
  rcases Option.map_eq_some'.mp hi with ⟨s, _, hs⟩
  rw [← hs]
  exact ⟨rfl, rfl⟩

/-- Desaturation never changes the number of module states. -/
lemma desaturateWheelSpeeds_length (states : List SwerveModuleState) (maxSpeed : ℚ) :
    (desaturateWheelSpeeds states maxSpeed).length = states.length := by
  simp only [desaturateWheelSpeeds]
  split
  · rw [List.length_map]
  · rfl

/-- An `Option`-monad `mapM` whose function succeeds on every input
succeeds, with the outputs pointwise related to the inputs. -/
lemma mapM_option_total {α β : Type} (f : α → Option β) (l : List α)
    (h : ∀ a ∈ l, ∃ b, f a = some b) :
    ∃ res, l.mapM f = some res ∧ List.Forall₂ (fun a b => f a = some b) l res := by
  induction l with
  | nil => exact ⟨[], rfl, List.Forall₂.nil⟩
  | cons a l ih =>
    rcases h a (List.mem_cons_self a l) with ⟨b, hb⟩
    rcases ih (fun x hx => h x (List.mem_cons_of_mem a hx)) with ⟨res, hres, hall⟩
    refine ⟨b :: res, ?hsome, List.Forall₂.cons hb hall⟩
    case hsome =>
      rw [List.mapM_cons, hb, hres]
      rfl

/-- The swervepy fan-out loop is correct for every module count: with a
state list matching the module count, module `i` receives exactly one
command, in index order, carrying the `i`-th desaturated state and the
given flags. -/
theorem swervepy_desire_module_states_fanout (d : SwerveDrive)
    (states : List SwerveModuleState) (driveOpenLoop rotateInPlace : Bool)
    (h : states.length = d.modules.length) :
    ∃ cmds, d.desire_module_states states driveOpenLoop rotateInPlace = some cmds ∧
      List.Forall₂
        (fun i c => ModuleCommand.moduleIndex c = i ∧
          (desaturateWheelSpeeds states d.maxVelocity).get? i = some c.state ∧
          c.openLoop = driveOpenLoop ∧ c.rotateInPlace = rotateInPlace)
        (List.range d.modules.length) cmds := by
  have hsat : (desaturateWheelSpeeds states d.maxVelocity).length = d.modules.length := by
    rw [desaturateWheelSpeeds_length, h]
  obtain ⟨cmds, hc, hall⟩ := mapM_option_total
    (fun i => ((desaturateWheelSpeeds states d.maxVelocity).get? i).map (fun s =>
      ({ moduleIndex := i, state := s, openLoop := driveOpenLoop,
         rotateInPlace := rotateInPlace } : ModuleCommand)))
    (List.range d.modules.length)
    (by
      intro i hi
      have hlt : i < (desaturateWheelSpeeds states d.maxVelocity).length := by
        rw [hsat]
        exact List.mem_range.mp hi
      refine ⟨({ moduleIndex := i,
                 state := (desaturateWheelSpeeds states d.maxVelocity).get ⟨i, hlt⟩,
                 openLoop := driveOpenLoop,
                 rotateInPlace := rotateInPlace } : ModuleCommand), ?hget⟩
      case hget =>
        show ((desaturateWheelSpeeds states d.maxVelocity).get? i).map _ = _
        rw [List.get?_eq_get hlt]
        rfl)
  refine ⟨cmds, hc, ?hrel⟩
  case hrel =>
    refine hall.imp ?himp
    intro i c hic
    rcases Option.map_eq_some'.mp hic with ⟨s, hs, hcs⟩
    rw [← hcs]
    exact ⟨rfl, hs, rfl, rfl⟩

/-- Fixture: a state list whose largest magnitude is 6. -/
def sampleStates : List SwerveModuleState :=
  [{ speed := 6, angle := Rotation2d.zero }, { speed := -3, angle := Rotation2d.zero }]

/-- **C1 witness.** At speeds `[6, -3]` the ceiling 3 saturates (6 > 3) and
the scaling branch applies; the ceiling 10 does not (6 ≤ 10) and the list
passes through unchanged. -/
theorem desaturateWheelSpeeds_spec_witness :
    ((3 : ℚ) < maxAbsSpeed sampleStates ∧
      desaturateWheelSpeeds sampleStates 3 =
        sampleStates.map
          (fun s => { s with speed := s.speed * (3 / maxAbsSpeed sampleStates) })) ∧
    (maxAbsSpeed sampleStates ≤ 10 ∧ desaturateWheelSpeeds sampleStates 10 = sampleStates) :=
  ⟨⟨by decide, ((desaturateWheelSpeeds_spec sampleStates 3).1 (by decide)).1⟩,
   ⟨by decide, (desaturateWheelSpeeds_spec sampleStates 10).2 (by decide)⟩⟩

/-- **C2.** The swervelib `desire_module_states` iterates `range(4)`
regardless of the module count: on a two-module drivetrain with a matching
two-state list, the loop indexes `self._modules[2]` and raises
(`none` in the embedding), so not every module receives exactly one
in-range command as the claim requires. -/
theorem swervelib_desire_module_states_two_modules :
    twoModuleDrive.desire_module_states_swervelib
      [{ speed := 1, angle := Rotation2d.zero }, { speed := 2, angle := Rotation2d.zero }]
      false true = none := by
  decide

/-- **C3.** With the gyro at zero heading, a field-relative drive call and
a robot-relative drive call with the same translation, rotation and
open-loop flag produce identical module commands. -/
theorem drive_zero_heading_frame_agnostic (d : SwerveDrive) (translation : Translation2d)
    (rotation : ℚ) (driveOpenLoop : Bool) (hzero : d.gyroHeading = Rotation2d.zero) :
    d.drive translation rotation true driveOpenLoop =
      d.drive translation rotation false driveOpenLoop := by
  have h : ChassisSpeeds.fromFieldRelativeSpeeds translation.x translation.y rotation
      Rotation2d.zero =
      { vx := translation.x, vy := translation.y, omega := rotation } := by
    unfold ChassisSpeeds.fromFieldRelativeSpeeds Rotation2d.zero
    congr 1 <;> ring
  simp [SwerveDrive.drive, hzero, h]

/-- **C3 witness.** The single-module fixture sits at zero heading; the
frame flag makes no difference at a concrete translation and rotation. -/
theorem drive_zero_heading_frame_agnostic_witness :
    sampleDrive.gyroHeading = Rotation2d.zero ∧
    sampleDrive.drive { x := 2, y := 1 } 1 true false =
      sampleDrive.drive { x := 2, y := 1 } 1 false false :=
  ⟨rfl, drive_zero_heading_frame_agnostic sampleDrive { x := 2, y := 1 } 1 false rfl⟩

/-- **C4.** The ChassisSpeeds overload of `drive` is exactly the primary
overload applied to the extracted translation and rotation with
`field_relative=False`. -/
theorem drive_chassis_overload_delegates (d : SwerveDrive) (chassisSpeeds : ChassisSpeeds)
    (driveOpenLoop : Bool) :
    d.drive_chassis chassisSpeeds driveOpenLoop =
      d.drive { x := chassisSpeeds.vx, y := chassisSpeeds.vy } chassisSpeeds.omega false
        driveOpenLoop := rfl

/-- **C5.** `drive` converts the composed chassis speed to module states by
the kinematics adapter and fans them out with `rotate_in_place=False`;
every command either overload issues carries `rotate_in_place=False`,
while a `desire_module_states` call using the Python default arguments
carries `rotate_in_place=True`. -/
theorem drive_uses_rotate_in_place_false (d : SwerveDrive) (translation : Translation2d)
    (rotation : ℚ) (fieldRelative driveOpenLoop : Bool) (chassisSpeeds : ChassisSpeeds)
    (states : List SwerveModuleState) :
    d.drive translation rotation fieldRelative driveOpenLoop =
      d.desire_module_states
        (d.toSwerveModuleStates
          (if fieldRelative then
            ChassisSpeeds.fromFieldRelativeSpeeds translation.x translation.y rotation
              d.gyroHeading
          else { vx := translation.x, vy := translation.y, omega := rotation }))
        driveOpenLoop false ∧
    (∀ cmds, d.drive translation rotation fieldRelative driveOpenLoop = some cmds →
      ∀ c ∈ cmds, c.rotateInPlace = false) ∧
    (∀ cmds, d.drive_chassis chassisSpeeds driveOpenLoop = some cmds →
      ∀ c ∈ cmds, c.rotateInPlace = false) ∧
    (∀ cmds, d.desire_module_states_with_defaults states = some cmds →
      ∀ c ∈ cmds, c.rotateInPlace = true) := by
  refine ⟨rfl, ?hdrive, ?hchassis, ?hdefaults⟩
  case hdrive =>
    intro cmds h c hc
    unfold SwerveDrive.drive at h
    exact (desire_module_states_flags d _ driveOpenLoop false cmds h c hc).2
  case hchassis =>
    intro cmds h c hc
    unfold SwerveDrive.drive_chassis SwerveDrive.drive at h
    exact (desire_module_states_flags d _ driveOpenLoop false cmds h c hc).2
  case hdefaults =>
    intro cmds h c hc
    unfold SwerveDrive.desire_module_states_with_defaults at h
    exact (desire_module_states_flags d _ false true cmds h c hc).2

/-- **C5 witness.** A concrete robot-relative drive call on the fixture
drivetrain issues exactly one command, and it carries
`rotate_in_place=False`. -/
theorem drive_uses_rotate_in_place_false_witness :
    sampleDrive.drive { x := 2, y := 0 } 0 false false =
      some [{ moduleIndex := 0, state := { speed := 2, angle := Rotation2d.zero },
              openLoop := false, rotateInPlace := false }] ∧
    ModuleCommand.rotateInPlace
      { moduleIndex := 0, state := { speed := 2, angle := Rotation2d.zero },
        openLoop := false, rotateInPlace := false } = false :=
  ⟨by decide,
   (drive_uses_rotate_in_place_false sampleDrive { x := 2, y := 0 } 0 false false
        { vx := 0, vy := 0, omega := 0 } []).2.1
     [{ moduleIndex := 0, state := { speed := 2, angle := Rotation2d.zero },
        openLoop := false, rotateInPlace := false }]
     (by decide)
     { moduleIndex := 0, state := { speed := 2, angle := Rotation2d.zero },
       openLoop := false, rotateInPlace := false }
     (by decide)⟩

/-- **C6.** In `src/swervepy/subsystem.py` the dashboard Open Loop setter
writes the attribute `drive_open_loop`, not the `open_loop` attribute that
`execute` reads: after a dashboard write of `True` to a command whose
open-loop flag is `False`, the flag stays `False` and the next `execute`
still issues commands with `openLoop=False` — while the swervelib setter
does update the flag. -/
theorem swervepy_open_loop_dashboard_write_ignored :
    ((TeleOpCommand.init true false).dashboard_set_open_loop_swervepy true).open_loop
      = false ∧
    ((TeleOpCommand.init true false).dashboard_set_open_loop_swervepy true).execute
        sampleDrive 1 0 0 =
      some [{ moduleIndex := 0, state := { speed := 4, angle := Rotation2d.zero },
              openLoop := false, rotateInPlace := false }] ∧
    ((TeleOpCommand.init true false).dashboard_set_open_loop_swervelib true).open_loop
      = true := by
  refine ⟨rfl, ?hexec, rfl⟩
  case hexec =>
    norm_num [TeleOpCommand.execute, TeleOpCommand.init,
      TeleOpCommand.dashboard_set_open_loop_swervepy, SwerveDrive.drive,
      SwerveDrive.desire_module_states, desaturateWheelSpeeds, maxAbsSpeed,
      sampleDrive, sampleModule, sampleKinematics,
      ChassisSpeeds.fromFieldRelativeSpeeds, Rotation2d.zero, List.range_succ]
    decide

/-- **C7.** Each `periodic` call fuses the heading and module positions
into the estimate first, invokes the vision callback exactly once with the
resulting current pose, appends a timestamped correction exactly when the
callback returns a pose, and mutates nothing else in the estimator
state. -/
theorem periodic_spec (d : SwerveDrive) (st : OdometryState) (timestamp : ℚ) :
    (d.periodic st timestamp).2 =
      [d.estimatorFuse st.estimatedPose d.gyroHeading d.module_positions] ∧
    (d.periodic st timestamp).1.estimatedPose =
      d.estimatorFuse st.estimatedPose d.gyroHeading d.module_positions ∧
    (d.periodic st timestamp).1.corrections =
      st.corrections ++
        ((d.visionPoseCallback
            (d.estimatorFuse st.estimatedPose d.gyroHeading d.module_positions)).toList.map
          (fun p => (p, timestamp))) ∧
    (d.periodic st timestamp).1.baselineHeading = d.gyroHeading ∧
    (d.periodic st timestamp).1.baselinePositions = d.module_positions := by
  unfold SwerveDrive.periodic SwerveDrive.pose OdometryState.getEstimatedPosition
  cases h : d.visionPoseCallback
      (d.estimatorFuse st.estimatedPose d.gyroHeading d.module_positions) with
  | none => simp [h]
  | some p => simp [h]

/-- **C8.** Immediately after `reset_odometry(P)` the `pose` accessor
returns exactly `P`, for any current heading and module positions taken as
the new baseline. -/
theorem reset_odometry_then_pose (d : SwerveDrive) (p : Pose2d) :
    SwerveDrive.pose (d.reset_odometry p) = p := rfl

/-- **C10.** Under the default construction the vision callback returns no
correction for any pose, so `periodic` leaves the correction list
untouched and performs exactly the fusion update. -/
theorem default_vision_callback_never_adds_correction (d : SwerveDrive)
    (st : OdometryState) (timestamp : ℚ)
    (hdef : d.visionPoseCallback = default_vision_pose_callback) :
    (d.periodic st timestamp).1.corrections = st.corrections ∧
    (d.periodic st timestamp).1 =
      { st with
          estimatedPose := d.estimatorFuse st.estimatedPose d.gyroHeading d.module_positions,
          baselineHeading := d.gyroHeading,
          baselinePositions := d.module_positions } := by
  unfold SwerveDrive.periodic
  rw [hdef]
  simp [default_vision_pose_callback, SwerveDrive.pose, OdometryState.getEstimatedPosition]

/-- **C10 witness.** The fixture drivetrain is constructed with the
default callback, and a `periodic` call adds no correction. -/
theorem default_vision_callback_never_adds_correction_witness :
    sampleDrive.visionPoseCallback = default_vision_pose_callback ∧
    (sampleDrive.periodic sampleOdometry 0).1.corrections = sampleOdometry.corrections :=
  ⟨rfl,
   (default_vision_callback_never_adds_correction sampleDrive sampleOdometry 0 rfl).1⟩

/-- **C9.** For a non-empty module list, `follow_trajectory_command`
constructs its feedback controller with a drive-base radius that bounds
every module's Euclidean distance from center and is attained by some
module — exactly the maximum of `sqrt(x² + y²)` over the module
placements. -/
theorem follow_trajectory_controller_radius_spec (d : SwerveDrive)
    (parameters : TrajectoryFollowerParameters) (hne : d.modules ≠ []) :
    ∃ controller,
      d.follow_trajectory_command_controller parameters = some controller ∧
      (∀ m ∈ d.modules,
        Translation2d.norm m.placement ≤ controller.driveBaseRadius) ∧
      (∃ m ∈ d.modules,
        controller.driveBaseRadius = Translation2d.norm m.placement) := by
  cases hm : d.modules with
  | nil => exact absurd hm hne
  | cons m0 ms =>
    have hctl : d.follow_trajectory_command_controller parameters =
        some { xy_kP := parameters.xy_kP, theta_kP := parameters.theta_kP,
               maxDriveVelocity := parameters.max_drive_velocity,
               driveBaseRadius :=
                 ((ms.map (fun m => m.placement)).map Translation2d.norm).foldl
                   max (Translation2d.norm m0.placement) } := by
      unfold SwerveDrive.follow_trajectory_command_controller
        greatest_distance_from_translations
      rw [hm]
      rfl
    refine ⟨_, hctl, ?hub, ?hattained⟩
    case hub =>
      intro m hmem2
      rcases List.mem_cons.mp hmem2 with h1 | h1
      · subst h1
        exact le_foldl_max _ _
      · exact mem_le_foldl_max _ _ _
          (List.mem_map.mpr ⟨m.placement, List.mem_map.mpr ⟨m, h1, rfl⟩, rfl⟩)
    case hattained =>
      rcases foldl_max_eq_or_mem
          ((ms.map (fun m => m.placement)).map Translation2d.norm)
          (Translation2d.norm m0.placement) with h | h
      · exact ⟨m0, List.mem_cons_self m0 ms, h⟩
      · rcases List.mem_map.mp h with ⟨t, ht, hnorm⟩
        rcases List.mem_map.mp ht with ⟨m, hmm, hpl⟩
        exact ⟨m, List.mem_cons_of_mem m0 hmm, by rw [← hnorm, hpl]⟩

/-- **C9 witness.** The single-module fixture has a non-empty module list
and the constructed controller's radius is the (unique) module's distance
from center. -/
theorem follow_trajectory_controller_radius_spec_witness :
    sampleDrive.modules ≠ [] ∧
    ∃ controller,
      sampleDrive.follow_trajectory_command_controller
          { max_drive_velocity := 4, theta_kP := 1, xy_kP := 1 } = some controller ∧
      (∀ m ∈ sampleDrive.modules,
        Translation2d.norm m.placement ≤ controller.driveBaseRadius) ∧
      (∃ m ∈ sampleDrive.modules,
        controller.driveBaseRadius = Translation2d.norm m.placement) :=
  ⟨List.cons_ne_nil sampleModule [],
   follow_trajectory_controller_radius_spec sampleDrive
     { max_drive_velocity := 4, theta_kP := 1, xy_kP := 1 }
     (List.cons_ne_nil sampleModule [])⟩

end Swerve
